import Mathlib

/-!
Shallow embedding of the registration portal's storage core.

Two backends exist in the source: a file-backed store (`json_store.js`,
class `DatabaseManager`) whose whole state is one JSON document
`{ problemStatements, registrations }` committed by a single atomic
write, and a Mongo-backed store (`MongoStore`) with two collections and
unique indexes on `id` / `teamNumber`.

Modelling conventions:
  - a JS number field holding `maxSelections` is modelled as `Int`
    (the file store never coerces it, so non-positive values are
    representable there);
  - `undefined`-or-value fields are `Option _`; the JS `x || null`
    coercion on strings (empty string is falsy) is `jsOrNull`;
  - `new Date().toISOString()` (the commit instant, UTC ISO-8601) is an
    explicit `now : String` parameter threaded to the operation;
  - the state after an operation is returned explicitly: stateful
    methods become `Store → result × Store`.
-/

structure ProblemStatement where
  id : String
  title : String
  description : String
  maxSelections : Int
  category : Option String
  difficulty : Option String
  technologies : List String
deriving DecidableEq, Repr

structure Registration where
  teamNumber : String
  teamName : String
  teamLeader : String
  problemStatementId : String
  registrationDateTime : String
deriving DecidableEq, Repr

/-- The JSON document / database state: `{ problemStatements, registrations }`. -/
structure Store where
  problemStatements : List ProblemStatement
  registrations : List Registration
deriving DecidableEq, Repr

/-- Result shape `{ id, changes }` returned by the mutating store methods. -/
structure ChangeResult where
  id : String
  changes : Nat
deriving DecidableEq, Repr

/-- JS `x || null` on an optional string: empty string is falsy. -/
def jsOrNull : Option String → Option String
  | none => none
  | some s => if s = "" then none else some s

/-- Input record for `createProblemStatement` / bulk import items. -/
structure PSInput where
  id : String
  title : String
  description : String
  maxSelections : Int
  category : Option String
  difficulty : Option String
  technologies : Option (List String)
deriving DecidableEq, Repr

/-- Request record for `createRegistrationAtomic`. -/
structure RegRequest where
  teamNumber : String
  teamName : String
  teamLeader : String
  problemStatementId : String
deriving DecidableEq, Repr

namespace JsonStore

/-- Embeds `json_store.js` `createProblemStatement`: rejects (changes 0, no
error signal) when the id is already present; otherwise pushes the
record, storing `maxSelections` exactly as given (no coercion). -/
def createProblemStatement (ps : PSInput) (s : Store) : ChangeResult × Store :=
  if s.problemStatements.any (fun p => p.id == ps.id) then
    ({ id := ps.id, changes := 0 }, s)
  else
    ({ id := ps.id, changes := 1 },
     { s with problemStatements := s.problemStatements ++
        [{ id := ps.id, title := ps.title, description := ps.description,
           maxSelections := ps.maxSelections,
           category := jsOrNull ps.category,
           difficulty := jsOrNull ps.difficulty,
           technologies := ps.technologies.getD [] }] })

/-- Update payload: each field is `none` when absent (`undefined`) from
the request body. `category`/`difficulty` can additionally be set to
JSON `null`, hence `Option (Option String)`. Both the snake_case and
camelCase spellings of max selections are accepted by the source. -/
structure PSUpdates where
  title : Option String
  description : Option String
  max_selections : Option Int
  maxSelections : Option Int
  category : Option (Option String)
  difficulty : Option (Option String)
  technologies : Option (List String)
deriving DecidableEq, Repr

/-- The field-by-field merge of `updateProblemStatement`: each provided
field overwrites the current one; `maxSelections` (checked second)
wins over `max_selections` when both are present. -/
def applyUpdates (current : ProblemStatement) (u : PSUpdates) : ProblemStatement :=
  let n := current
  let n := match u.title with | some t => { n with title := t } | none => n
  let n := match u.description with | some d => { n with description := d } | none => n
  let n := match u.max_selections with | some v => { n with maxSelections := v } | none => n
  let n := match u.maxSelections with | some v => { n with maxSelections := v } | none => n
  let n := match u.category with | some c => { n with category := c } | none => n
  let n := match u.difficulty with | some d => { n with difficulty := d } | none => n
  let n := match u.technologies with | some t => { n with technologies := t } | none => n
  n

/-- Renders `findIndex` + `data.problemStatements[idx] = next`: replace
the first element whose id matches, `none` when no element matches. -/
def updatePSList (psId : String) (u : PSUpdates) :
    List ProblemStatement → Option (List ProblemStatement)
  | [] => none
  | p :: rest =>
    if p.id == psId then some (applyUpdates p u :: rest)
    else (updatePSList psId u rest).map (fun l => p :: l)

/-- Embeds `json_store.js` `updateProblemStatement`. -/
def updateProblemStatement (s : Store) (psId : String) (u : PSUpdates) :
    ChangeResult × Store :=
  match updatePSList psId u s.problemStatements with
  | none => ({ id := psId, changes := 0 }, s)
  | some l => ({ id := psId, changes := 1 }, { s with problemStatements := l })

/-- Embeds `json_store.js` `deleteProblemStatement`: filters the catalog and the
ledger in memory and commits both with one atomic write. -/
def deleteProblemStatement (s : Store) (psId : String) : ChangeResult × Store :=
  let before := s.problemStatements.length
  let ps' := s.problemStatements.filter (fun p => !(p.id == psId))
  let regs' := s.registrations.filter (fun r => !(r.problemStatementId == psId))
  ({ id := psId, changes := before - ps'.length },
   { problemStatements := ps', registrations := regs' })

/-- Embeds `json_store.js` `isTeamNumberTaken`: exact-match scan, no trimming. -/
def isTeamNumberTaken (s : Store) (teamNumber : String) : Bool :=
  s.registrations.any (fun r => r.teamNumber == teamNumber)

/-- Embeds `json_store.js` `createRegistrationAtomic`: duplicate-team check
(exact match) first, then problem existence, then capacity; on success
pushes the record stamped with the commit instant and returns
`{ id: teamNumber, changes: 1 }`; every rejection returns `null` and
writes nothing. -/
def createRegistrationAtomic (reg : RegRequest) (now : String) (s : Store) :
    Option ChangeResult × Store :=
  if s.registrations.any (fun r => r.teamNumber == reg.teamNumber) then (none, s)
  else
    match s.problemStatements.find? (fun p => p.id == reg.problemStatementId) with
    | none => (none, s)
    | some ps =>
      let current := (s.registrations.filter
        (fun r => r.problemStatementId == ps.id)).length
      if (current : Int) ≥ ps.maxSelections then (none, s)
      else
        let record : Registration :=
          { teamNumber := reg.teamNumber, teamName := reg.teamName,
            teamLeader := reg.teamLeader,
            problemStatementId := reg.problemStatementId,
            registrationDateTime := now }
        (some { id := record.teamNumber, changes := 1 },
         { s with registrations := s.registrations ++ [record] })

/-- Embeds `json_store.js` `deleteRegistration`: exact-match filter. -/
def deleteRegistration (s : Store) (teamNumber : String) : ChangeResult × Store :=
  let before := s.registrations.length
  let regs' := s.registrations.filter (fun r => !(r.teamNumber == teamNumber))
  ({ id := teamNumber, changes := before - regs'.length },
   { s with registrations := regs' })

/-- Embeds `json_store.js` `importFromJSON`: pushes the items whose id is not
already present (`maxSelections` stored as given); the set of known ids
is computed once up front and not extended while inserting. -/
def importFromJSON (items : List PSInput) (s : Store) : Store :=
  let newIds := s.problemStatements.map (fun p => p.id)
  let toAdd := (items.filter (fun ps => !(newIds.contains ps.id))).map
    (fun ps =>
      ({ id := ps.id, title := ps.title, description := ps.description,
         maxSelections := ps.maxSelections,
         category := jsOrNull ps.category,
         difficulty := jsOrNull ps.difficulty,
         technologies := ps.technologies.getD [] } : ProblemStatement))
  { s with problemStatements := s.problemStatements ++ toAdd }

/-- View row produced by `getAllProblemStatements` (the read-model
projection of a catalog entry). -/
structure PSView where
  id : String
  title : String
  description : String
  max_selections : Int
  category : Option String
  difficulty : Option String
  technologies : List String
  selected_count : Nat
  is_available : Bool
deriving DecidableEq, Repr

/-- View row produced by `getAllRegistrations` (registration joined with
its problem statement's title/category/difficulty). -/
structure RegView where
  team_number : String
  team_name : String
  team_leader : String
  problem_title : String
  problem_category : Option String
  problem_difficulty : Option String
  registration_date_time : String
deriving DecidableEq, Repr

/-- One step of building `idToCount`:
`idToCount.set(k, (idToCount.get(k) || 0) + 1)`. -/
def bumpCount (m : List (String × Nat)) (k : String) : List (String × Nat) :=
  match m with
  | [] => [(k, 1)]
  | (k', v) :: rest =>
    if k' = k then (k', v + 1) :: rest else (k', v) :: bumpCount rest k

/-- Reads `idToCount.get(k) || 0`. -/
def lookupCount (m : List (String × Nat)) (k : String) : Nat :=
  match m with
  | [] => 0
  | (k', v) :: rest => if k' = k then v else lookupCount rest k

/-- Builds the `idToCount` map: `registrations.forEach(r => idToCount.set(...))`. -/
def idToCount (regs : List Registration) : List (String × Nat) :=
  regs.foldl (fun m r => bumpCount m r.problemStatementId) []

/-- A JS `Map` built from a list of key/value pairs: a later entry for
the same key overwrites an earlier one. -/
def setAssoc (m : List (String × ProblemStatement)) (k : String)
    (v : ProblemStatement) : List (String × ProblemStatement) :=
  match m with
  | [] => [(k, v)]
  | (k', v') :: rest =>
    if k' = k then (k', v) :: rest else (k', v') :: setAssoc rest k v

/-- Reads `idToPs.get(k)` (`none` when absent). -/
def getAssoc (m : List (String × ProblemStatement)) (k : String) :
    Option ProblemStatement :=
  match m with
  | [] => none
  | (k', v) :: rest => if k' = k then some v else getAssoc rest k

/-- Builds `new Map(data.problemStatements.map(p => [p.id, p]))`. -/
def idToPs (ps : List ProblemStatement) : List (String × ProblemStatement) :=
  ps.foldl (fun m p => setAssoc m p.id p) []

/-- Embeds `json_store.js` `getAllProblemStatements`: counts ledger rows per
problem id, then projects each catalog entry with its derived
`selected_count` and `is_available = selected < maxSelections`
(the stored, uncoerced `maxSelections`). -/
def getAllProblemStatements (s : Store) : List PSView :=
  let m := idToCount s.registrations
  s.problemStatements.map (fun ps =>
    let selected := lookupCount m ps.id
    { id := ps.id, title := ps.title, description := ps.description,
      max_selections := ps.maxSelections,
      category := ps.category, difficulty := ps.difficulty,
      technologies := ps.technologies,
      selected_count := selected,
      is_available := decide ((selected : Int) < ps.maxSelections) })

/-- Embeds `json_store.js` `getAllRegistrations`: joins each ledger row with its
problem statement's title/category/difficulty via the `idToPs` map
(empty/null when the statement is absent). -/
def getAllRegistrations (s : Store) : List RegView :=
  let m := idToPs s.problemStatements
  s.registrations.map (fun r =>
    { team_number := r.teamNumber, team_name := r.teamName,
      team_leader := r.teamLeader,
      problem_title := ((getAssoc m r.problemStatementId).map
        (fun p => p.title)).getD "",
      problem_category := ((getAssoc m r.problemStatementId).map
        (fun p => p.category)).getD none,
      problem_difficulty := ((getAssoc m r.problemStatementId).map
        (fun p => p.difficulty)).getD none,
      registration_date_time := r.registrationDateTime })

end JsonStore

/-- JS `String#trim`: drop leading and trailing whitespace characters.
Modelled on the string's underlying character list so that it reduces
inside the kernel (`String.trim` itself does not). -/
def jsTrim (s : String) : String :=
  ⟨((s.data.dropWhile Char.isWhitespace).reverse.dropWhile Char.isWhitespace).reverse⟩

namespace MongoStore

/-- The clamp applied throughout `MongoStore`:
`Math.max(1, parsedMax)` (the numeric branch of the `parseInt` guard;
`maxSelections` is modelled as a number). -/
def clampMax (v : Int) : Int := max 1 v

/-- Embeds `MongoStore.createProblemStatement`: coerces `maxSelections` to ≥ 1
and inserts; the unique index on `id` makes the insert fail on a
duplicate, which the source catches and reports as `changes: 0`. -/
def createProblemStatement (ps : PSInput) (s : Store) : ChangeResult × Store :=
  let maxSel := clampMax ps.maxSelections
  if s.problemStatements.any (fun p => p.id == ps.id) then
    ({ id := ps.id, changes := 0 }, s)
  else
    ({ id := ps.id, changes := 1 },
     { s with problemStatements := s.problemStatements ++
        [{ id := ps.id, title := ps.title, description := ps.description,
           maxSelections := maxSel,
           category := jsOrNull ps.category,
           difficulty := jsOrNull ps.difficulty,
           technologies := ps.technologies.getD [] }] })

/-- Mongo `deleteProblemStatement` runs two separate store writes:
first `ps.deleteOne({ id })` (removes the first matching document),
then `regs.deleteMany({ problemStatementId: id })`. This is the state
after the first write only (the observable intermediate state between
the two). -/
def deletePSIntermediate (s : Store) (psId : String) : Store :=
  { s with problemStatements :=
      s.problemStatements.eraseP (fun p => p.id == psId) }

/-- Embeds `MongoStore.deleteProblemStatement`: the final state after both
writes; `changes` is the number of catalog documents deleted. -/
def deleteProblemStatement (s : Store) (psId : String) : ChangeResult × Store :=
  let before := s.problemStatements.length
  let s1 := deletePSIntermediate s psId
  let s2 := { s1 with registrations :=
      s1.registrations.filter (fun r => !(r.problemStatementId == psId)) }
  ({ id := psId, changes := before - s1.problemStatements.length }, s2)

/-- Embeds `MongoStore.createRegistrationAtomic` with its transaction read as a
sequential procedure: trims the team number, checks duplicate team
(trimmed, exact match against stored values), problem existence, and
capacity against the clamped `maxSelections`; on success inserts the
record stamped with the commit instant. -/
def createRegistrationAtomic (reg : RegRequest) (now : String) (s : Store) :
    Option ChangeResult × Store :=
  let target := jsTrim reg.teamNumber
  if s.registrations.any (fun r => r.teamNumber == target) then (none, s)
  else
    match s.problemStatements.find? (fun p => p.id == reg.problemStatementId) with
    | none => (none, s)
    | some problem =>
      let maxSel := clampMax problem.maxSelections
      let current := (s.registrations.filter
        (fun r => r.problemStatementId == problem.id)).length
      if (current : Int) ≥ maxSel then (none, s)
      else
        let record : Registration :=
          { teamNumber := target, teamName := reg.teamName,
            teamLeader := reg.teamLeader,
            problemStatementId := reg.problemStatementId,
            registrationDateTime := now }
        (some { id := record.teamNumber, changes := 1 },
         { s with registrations := s.registrations ++ [record] })

/-- Embeds the `$set` document built by `MongoStore.updateProblemStatement`
and its application to the matched document: each provided field
overwrites the current one; when a max-selections value is provided
(`max_selections` takes precedence over `maxSelections` via `??`,
unlike the file store) it is stored clamped to ≥ 1. -/
def applyUpdates (current : ProblemStatement) (u : JsonStore.PSUpdates) :
    ProblemStatement :=
  let n := current
  let n := match u.title with | some t => { n with title := t } | none => n
  let n := match u.description with | some d => { n with description := d } | none => n
  let n := match u.category with | some c => { n with category := c } | none => n
  let n := match u.difficulty with | some d => { n with difficulty := d } | none => n
  let n := match u.technologies with | some t => { n with technologies := t } | none => n
  match u.max_selections, u.maxSelections with
  | none, none => n
  | some v, _ => { n with maxSelections := clampMax v }
  | none, some v => { n with maxSelections := clampMax v }

/-- Renders `updateOne({ id }, { $set: doc })` on the catalog list:
replace the first element whose id matches (the unique index allows at
most one), returning the matched document as well; `none` when no
element matches. -/
def updatePSList (psId : String) (u : JsonStore.PSUpdates) :
    List ProblemStatement → Option (ProblemStatement × List ProblemStatement)
  | [] => none
  | p :: rest =>
    if p.id == psId then some (p, applyUpdates p u :: rest)
    else (updatePSList psId u rest).map (fun pr => (pr.1, p :: pr.2))

/-- Embeds `MongoStore.updateProblemStatement`: applies the `$set`
document to the matching document and returns `res.modifiedCount` as
`changes` — 0 when no document matches, and also 0 when a document
matches but the update leaves it unchanged. -/
def updateProblemStatement (s : Store) (psId : String) (u : JsonStore.PSUpdates) :
    ChangeResult × Store :=
  match updatePSList psId u s.problemStatements with
  | none => ({ id := psId, changes := 0 }, s)
  | some (old, l) =>
    ({ id := psId, changes := if applyUpdates old u = old then 0 else 1 },
     { s with problemStatements := l })

/-- Embeds `MongoStore.importFromJSON`: inserts only the items whose id is not
already present, with `maxSelections` coerced to ≥ 1. -/
def importFromJSON (items : List PSInput) (s : Store) : Store :=
  let existingIds := s.problemStatements.map (fun p => p.id)
  let toInsert := (items.filter (fun ps => !(existingIds.contains ps.id))).map
    (fun ps =>
      ({ id := ps.id, title := ps.title, description := ps.description,
         maxSelections := clampMax ps.maxSelections,
         category := jsOrNull ps.category,
         difficulty := jsOrNull ps.difficulty,
         technologies := ps.technologies.getD [] } : ProblemStatement))
  { s with problemStatements := s.problemStatements ++ toInsert }

end MongoStore

section CountLemmas

theorem lookupCount_bumpCount (m : List (String × Nat)) (kb k : String) :
    JsonStore.lookupCount (JsonStore.bumpCount m kb) k
      = JsonStore.lookupCount m k + (if kb = k then 1 else 0) := by
  induction m with
  | nil =>
    by_cases h : kb = k <;> simp [JsonStore.bumpCount, JsonStore.lookupCount, h]
  | cons hd tl ih =>
    obtain ⟨k0, v0⟩ := hd
    by_cases h0 : k0 = kb
    · subst h0
      by_cases h : k0 = k <;> simp [JsonStore.bumpCount, JsonStore.lookupCount, h]
    · by_cases h : k0 = k
      · subst h
        have hkb : ¬ kb = k0 := fun hh => h0 hh.symm
        simp [JsonStore.bumpCount, JsonStore.lookupCount, h0, hkb]
      · simp [JsonStore.bumpCount, JsonStore.lookupCount, h0, h, ih]

theorem lookupCount_foldl (regs : List Registration)
    (m : List (String × Nat)) (k : String) :
    JsonStore.lookupCount (regs.foldl (fun acc r => JsonStore.bumpCount acc r.problemStatementId) m) k
      = JsonStore.lookupCount m k + regs.countP (fun r => r.problemStatementId == k) := by
  induction regs generalizing m with
  | nil => simp
  | cons r rest ih =>
    simp only [List.foldl_cons, ih, lookupCount_bumpCount, List.countP_cons]
    by_cases h : r.problemStatementId = k
    · simp [h]
      omega
    · simp [h]

/-- The `JsonStore.idToCount` lookup used by the projection equals a direct count
of the ledger rows referencing the given id. -/
theorem lookupCount_idToCount (regs : List Registration) (k : String) :
    JsonStore.lookupCount (JsonStore.idToCount regs) k
      = regs.countP (fun r => r.problemStatementId == k) := by
  simpa [JsonStore.idToCount, JsonStore.lookupCount] using lookupCount_foldl regs [] k

end CountLemmas

/-- Claim C6: for every store state, `getAllProblemStatements` reports for
the i-th catalog entry a `selected_count` equal to the number of ledger
rows whose `problemStatementId` equals that entry's id, and an
`is_available` flag equal to `selected_count < maxSelections`. -/
theorem C6_projection_correct (s : Store) (i : Nat)
    (hp : i < s.problemStatements.length) :
    ∃ h : i < (JsonStore.getAllProblemStatements s).length,
      ((JsonStore.getAllProblemStatements s).get ⟨i, h⟩).selected_count
          = s.registrations.countP
              (fun r => r.problemStatementId == (s.problemStatements.get ⟨i, hp⟩).id)
        ∧ ((JsonStore.getAllProblemStatements s).get ⟨i, h⟩).is_available
          = decide ((((JsonStore.getAllProblemStatements s).get
                ⟨i, h⟩).selected_count : Int)
              < (s.problemStatements.get ⟨i, hp⟩).maxSelections) := by
  have h : i < (JsonStore.getAllProblemStatements s).length := by
    simpa [JsonStore.getAllProblemStatements] using hp
  refine ⟨h, ?_, ?_⟩
  · simp [JsonStore.getAllProblemStatements, lookupCount_idToCount]
  · simp [JsonStore.getAllProblemStatements]

/-- Witness for C6 at a concrete one-problem, one-registration store. -/
theorem C6_projection_correct_witness :
    0 < (Store.mk [⟨"p1", "t", "d", 2, none, none, []⟩]
          [⟨"T1", "A", "L", "p1", "t0"⟩]).problemStatements.length
    ∧ ∃ h : 0 < (JsonStore.getAllProblemStatements
          (Store.mk [⟨"p1", "t", "d", 2, none, none, []⟩]
            [⟨"T1", "A", "L", "p1", "t0"⟩])).length,
        ((JsonStore.getAllProblemStatements
            (Store.mk [⟨"p1", "t", "d", 2, none, none, []⟩]
              [⟨"T1", "A", "L", "p1", "t0"⟩])).get ⟨0, h⟩).selected_count
            = (Store.mk [⟨"p1", "t", "d", 2, none, none, []⟩]
                [⟨"T1", "A", "L", "p1", "t0"⟩]).registrations.countP
                (fun r => r.problemStatementId ==
                  ((Store.mk [⟨"p1", "t", "d", 2, none, none, []⟩]
                    [⟨"T1", "A", "L", "p1", "t0"⟩]).problemStatements.get
                      ⟨0, by decide⟩).id)
          ∧ ((JsonStore.getAllProblemStatements
              (Store.mk [⟨"p1", "t", "d", 2, none, none, []⟩]
                [⟨"T1", "A", "L", "p1", "t0"⟩])).get ⟨0, h⟩).is_available
            = decide ((((JsonStore.getAllProblemStatements
                  (Store.mk [⟨"p1", "t", "d", 2, none, none, []⟩]
                    [⟨"T1", "A", "L", "p1", "t0"⟩])).get
                    ⟨0, h⟩).selected_count : Int)
                < ((Store.mk [⟨"p1", "t", "d", 2, none, none, []⟩]
                    [⟨"T1", "A", "L", "p1", "t0"⟩]).problemStatements.get
                      ⟨0, by decide⟩).maxSelections) :=
  ⟨by decide,
   C6_projection_correct
     (Store.mk [⟨"p1", "t", "d", 2, none, none, []⟩]
       [⟨"T1", "A", "L", "p1", "t0"⟩]) 0 (by decide)⟩

/-- Claim C2 (amended): for every store state and request,
`createRegistrationAtomic` either appends exactly one new Registration
stamped with the commit instant and returns the acknowledgment
`{ id: teamNumber, changes: 1 }`, or returns `null` and leaves the
ledger and catalog completely unchanged. -/
theorem C2_register_dichotomy (req : RegRequest) (now : String) (s : Store) :
    (∃ rec : Registration,
        rec.teamNumber = req.teamNumber ∧ rec.teamName = req.teamName
        ∧ rec.teamLeader = req.teamLeader
        ∧ rec.problemStatementId = req.problemStatementId
        ∧ rec.registrationDateTime = now
        ∧ JsonStore.createRegistrationAtomic req now s
            = (some { id := rec.teamNumber, changes := 1 },
               { s with registrations := s.registrations ++ [rec] }))
    ∨ JsonStore.createRegistrationAtomic req now s = (none, s) := by
  unfold JsonStore.createRegistrationAtomic
  by_cases hdup : s.registrations.any (fun r => r.teamNumber == req.teamNumber)
  · right; simp [hdup]
  · simp only [hdup, Bool.false_eq_true, if_false]
    cases hfind : s.problemStatements.find? (fun p => p.id == req.problemStatementId) with
    | none => right; simp
    | some ps =>
      by_cases hfull : ((s.registrations.filter
          (fun r => r.problemStatementId == ps.id)).length : Int) ≥ ps.maxSelections
      · right; simp [hfull]
      · left
        refine ⟨⟨req.teamNumber, req.teamName, req.teamLeader,
          req.problemStatementId, now⟩, rfl, rfl, rfl, rfl, rfl, ?_⟩
        simp [hfull]

/-- Claim C2, counterexample to the claim as stated: two successful calls
whose appended Registrations differ (different `teamName`) return the
identical value `{ id: "T1", changes: 1 }`, so the value returned by the
source is not the created Registration (it only acknowledges it). -/
theorem C2_counterexample :
    (JsonStore.createRegistrationAtomic ⟨"T1", "Alpha", "L1", "p1"⟩
        "2025-01-01T00:00:00.000Z"
        ⟨[⟨"p1", "t", "d", 2, none, none, []⟩], []⟩).1
      = (JsonStore.createRegistrationAtomic ⟨"T1", "Beta", "L2", "p1"⟩
          "2025-01-01T00:00:00.000Z"
          ⟨[⟨"p1", "t", "d", 2, none, none, []⟩], []⟩).1
    ∧ (JsonStore.createRegistrationAtomic ⟨"T1", "Alpha", "L1", "p1"⟩
          "2025-01-01T00:00:00.000Z"
          ⟨[⟨"p1", "t", "d", 2, none, none, []⟩], []⟩).2.registrations
      ≠ (JsonStore.createRegistrationAtomic ⟨"T1", "Beta", "L2", "p1"⟩
          "2025-01-01T00:00:00.000Z"
          ⟨[⟨"p1", "t", "d", 2, none, none, []⟩], []⟩).2.registrations := by
  decide

/-- Claim C7: on an id collision, `createProblemStatement` of the file
store leaves the catalog unchanged but signals no `AlreadyExists`
error — it returns the same success-shaped record with `changes: 0`.
Evaluated at the failing input (creating "ps001" twice). -/
theorem C7_silent_collision :
    JsonStore.createProblemStatement ⟨"ps001", "t2", "d2", 3, none, none, none⟩
        ⟨[⟨"ps001", "t", "d", 2, none, none, []⟩], []⟩
      = ({ id := "ps001", changes := 0 },
         ⟨[⟨"ps001", "t", "d", 2, none, none, []⟩], []⟩) := by
  decide

/-- Claim C3 (amended): the duplicate-team check is the first
precondition of `createRegistrationAtomic` — an exact, untrimmed match
in the file store, a trimmed match in the Mongo store — and a request
matching an existing team number is rejected with no state change
regardless of problem existence or capacity. -/
theorem C3_duplicate_first (s : Store) (req : RegRequest) (now : String) :
    (s.registrations.any (fun r => r.teamNumber == req.teamNumber) = true →
      JsonStore.createRegistrationAtomic req now s = (none, s))
    ∧ (s.registrations.any (fun r => r.teamNumber == jsTrim req.teamNumber) = true →
      MongoStore.createRegistrationAtomic req now s = (none, s)) := by
  constructor
  · intro h
    unfold JsonStore.createRegistrationAtomic
    simp [h]
  · intro h
    unfold MongoStore.createRegistrationAtomic
    simp [h]

/-- Witness for C3 (amended) at a concrete one-registration ledger. -/
theorem C3_duplicate_first_witness :
    ((Store.mk [] [⟨"T1", "A", "L", "p1", "t0"⟩]).registrations.any
        (fun r => r.teamNumber == (RegRequest.mk "T1" "B" "M" "p9").teamNumber) = true)
    ∧ JsonStore.createRegistrationAtomic ⟨"T1", "B", "M", "p9"⟩ "t1"
        (Store.mk [] [⟨"T1", "A", "L", "p1", "t0"⟩])
      = (none, Store.mk [] [⟨"T1", "A", "L", "p1", "t0"⟩]) :=
  ⟨by decide,
   (C3_duplicate_first (Store.mk [] [⟨"T1", "A", "L", "p1", "t0"⟩])
     ⟨"T1", "B", "M", "p9"⟩ "t1").1 (by decide)⟩

/-- Claim C3, counterexample to the claim as stated: "T1" is registered,
and the request's team number "T1 " equals it after trimming, yet the
file store accepts the registration (it compares without trimming). -/
theorem C3_counterexample :
    jsTrim "T1 " = "T1"
    ∧ JsonStore.isTeamNumberTaken
        ⟨[⟨"p1", "t", "d", 2, none, none, []⟩], [⟨"T1", "A", "L", "p1", "t0"⟩]⟩
        "T1" = true
    ∧ (JsonStore.createRegistrationAtomic ⟨"T1 ", "B", "M", "p1"⟩ "t1"
        ⟨[⟨"p1", "t", "d", 2, none, none, []⟩], [⟨"T1", "A", "L", "p1", "t0"⟩]⟩).1
      = some { id := "T1 ", changes := 1 } := by
  decide

/-- Claim C4, counterexample to the claim as stated: the file store's
`createProblemStatement` stores `maxSelections = 0` exactly as given —
no coercion to 1 happens on this backend. -/
theorem C4_counterexample :
    (JsonStore.createProblemStatement ⟨"p1", "t", "d", 0, none, none, none⟩
        ⟨[], []⟩).2.problemStatements
      = [⟨"p1", "t", "d", 0, none, none, []⟩]
    ∧ ¬ (1 ≤ (0 : Int)) := by
  decide

/-- Claim C4 (amended): the Mongo store coerces `maxSelections` to a
positive integer ≥ 1 on create and on bulk import (every record it adds
satisfies `1 ≤ maxSelections`), while the file store stores the given
`maxSelections` unchanged. -/
theorem C4_coercion (inp : PSInput) (s : Store) (items : List PSInput) :
    (∀ p ∈ (MongoStore.createProblemStatement inp s).2.problemStatements,
        p ∈ s.problemStatements ∨ 1 ≤ p.maxSelections)
    ∧ (∀ p ∈ (MongoStore.importFromJSON items s).problemStatements,
        p ∈ s.problemStatements ∨ 1 ≤ p.maxSelections)
    ∧ (∀ p ∈ (JsonStore.createProblemStatement inp s).2.problemStatements,
        p ∈ s.problemStatements ∨ p.maxSelections = inp.maxSelections) := by
  refine ⟨?_, ?_, ?_⟩
  · intro p hp
    unfold MongoStore.createProblemStatement at hp
    by_cases h : s.problemStatements.any (fun q => q.id == inp.id)
    · simp [h] at hp
      exact Or.inl hp
    · simp [h] at hp
      rcases hp with hp | hp
      · exact Or.inl hp
      · right
        rw [hp]
        simp [MongoStore.clampMax]
  · intro p hp
    unfold MongoStore.importFromJSON at hp
    simp only [List.mem_append] at hp
    rcases hp with hp | hp
    · exact Or.inl hp
    · right
      rcases List.mem_map.mp hp with ⟨item, _, hitem⟩
      rw [← hitem]
      simp [MongoStore.clampMax]
  · intro p hp
    unfold JsonStore.createProblemStatement at hp
    by_cases h : s.problemStatements.any (fun q => q.id == inp.id)
    · simp [h] at hp
      exact Or.inl hp
    · simp [h] at hp
      rcases hp with hp | hp
      · exact Or.inl hp
      · right
        rw [hp]

/-- Witness for C4 (amended): creating with `maxSelections = 0` on the
Mongo backend stores a record with `maxSelections = 1`. -/
theorem C4_coercion_witness :
    (⟨"p1", "t", "d", 1, none, none, []⟩ : ProblemStatement)
        ∈ (MongoStore.createProblemStatement ⟨"p1", "t", "d", 0, none, none, none⟩
            ⟨[], []⟩).2.problemStatements
    ∧ ((⟨"p1", "t", "d", 1, none, none, []⟩ : ProblemStatement)
          ∈ (Store.mk [] []).problemStatements
        ∨ 1 ≤ (ProblemStatement.mk "p1" "t" "d" 1 none none []).maxSelections) :=
  ⟨by decide,
   (C4_coercion ⟨"p1", "t", "d", 0, none, none, none⟩ ⟨[], []⟩ []).1
     ⟨"p1", "t", "d", 1, none, none, []⟩ (by decide)⟩

/-- With catalog ids distinct, erasing the first id match leaves no
entry with that id (helper for the Mongo cascade). -/
theorem eraseP_id_not_mem (psId : String) (l : List ProblemStatement)
    (hnd : (l.map (fun p => p.id)).Nodup) :
    ∀ p ∈ l.eraseP (fun p => p.id == psId), p.id ≠ psId := by
  induction l with
  | nil => intro p hp; simp [List.eraseP] at hp
  | cons a tl ih =>
    intro p hp
    rw [List.eraseP_cons] at hp
    simp only [List.map_cons, List.nodup_cons] at hnd
    by_cases ha : a.id = psId
    · simp [ha] at hp
      intro hc
      apply hnd.1
      rw [ha, ← hc]
      exact List.mem_map_of_mem (fun q => q.id) hp
    · have ha2 : (a.id == psId) = false := by simpa using ha
      simp only [ha2, cond_false, List.mem_cons] at hp
      rcases hp with rfl | hp
      · exact ha
      · exact ih hnd.2 p hp

/-- Claim C5 (amended): on both backends `deleteProblemStatement s psId`
ends in a state whose ledger has no Registration referencing `psId`
(and whose rows all come from the pre-state ledger), the file store's
catalog has no entry with that id (the Mongo store's as well, given the
unique index on `id`), and `getAllRegistrations` of the resulting file
store contains only rows derived from surviving registrations. The
claimed deletion order is refuted separately: the Mongo store deletes
the ProblemStatement first, then the Registrations. -/
theorem C5_cascade (s : Store) (psId : String) :
    (∀ r ∈ (JsonStore.deleteProblemStatement s psId).2.registrations,
        r.problemStatementId ≠ psId ∧ r ∈ s.registrations)
    ∧ (∀ p ∈ (JsonStore.deleteProblemStatement s psId).2.problemStatements,
        p.id ≠ psId)
    ∧ (∀ v ∈ JsonStore.getAllRegistrations (JsonStore.deleteProblemStatement s psId).2,
        ∃ r ∈ s.registrations, r.problemStatementId ≠ psId
          ∧ v.team_number = r.teamNumber
          ∧ v.registration_date_time = r.registrationDateTime)
    ∧ (∀ r ∈ (MongoStore.deleteProblemStatement s psId).2.registrations,
        r.problemStatementId ≠ psId ∧ r ∈ s.registrations)
    ∧ ((s.problemStatements.map (fun p => p.id)).Nodup →
        ∀ p ∈ (MongoStore.deleteProblemStatement s psId).2.problemStatements,
          p.id ≠ psId) := by
  refine ⟨?_, ?_, ?_, ?_, ?_⟩
  · intro r hr
    simp only [JsonStore.deleteProblemStatement, List.mem_filter,
      Bool.not_eq_eq_eq_not, Bool.not_true, beq_eq_false_iff_ne] at hr
    exact ⟨hr.2, hr.1⟩
  · intro p hp
    simp only [JsonStore.deleteProblemStatement, List.mem_filter,
      Bool.not_eq_eq_eq_not, Bool.not_true, beq_eq_false_iff_ne] at hp
    exact hp.2
  · intro v hv
    simp only [JsonStore.getAllRegistrations, List.mem_map] at hv
    rcases hv with ⟨r, hrmem, hveq⟩
    simp only [JsonStore.deleteProblemStatement, List.mem_filter,
      Bool.not_eq_eq_eq_not, Bool.not_true, beq_eq_false_iff_ne] at hrmem
    exact ⟨r, hrmem.1, hrmem.2, by rw [← hveq], by rw [← hveq]⟩
  · intro r hr
    simp only [MongoStore.deleteProblemStatement, MongoStore.deletePSIntermediate,
      List.mem_filter, Bool.not_eq_eq_eq_not, Bool.not_true,
      beq_eq_false_iff_ne] at hr
    exact ⟨hr.2, hr.1⟩
  · intro hnd p hp
    simp only [MongoStore.deleteProblemStatement,
      MongoStore.deletePSIntermediate] at hp
    exact eraseP_id_not_mem psId s.problemStatements hnd p hp

/-- Witness for C5 at a concrete store (one problem, one registration
referencing it). -/
theorem C5_cascade_witness :
    (∀ r ∈ (JsonStore.deleteProblemStatement
        ⟨[⟨"p1", "t", "d", 2, none, none, []⟩], [⟨"T1", "A", "L", "p1", "t0"⟩]⟩
        "p1").2.registrations,
      r.problemStatementId ≠ "p1"
        ∧ r ∈ (Store.mk [⟨"p1", "t", "d", 2, none, none, []⟩]
            [⟨"T1", "A", "L", "p1", "t0"⟩]).registrations)
    ∧ (∀ p ∈ (MongoStore.deleteProblemStatement
        ⟨[⟨"p1", "t", "d", 2, none, none, []⟩], [⟨"T1", "A", "L", "p1", "t0"⟩]⟩
        "p1").2.problemStatements,
      p.id ≠ "p1") :=
  ⟨(C5_cascade ⟨[⟨"p1", "t", "d", 2, none, none, []⟩],
      [⟨"T1", "A", "L", "p1", "t0"⟩]⟩ "p1").1,
   (C5_cascade ⟨[⟨"p1", "t", "d", 2, none, none, []⟩],
      [⟨"T1", "A", "L", "p1", "t0"⟩]⟩ "p1").2.2.2.2 (by decide)⟩

/-- Claim C5, counterexample to the claimed deletion order: the Mongo
store's first write removes the ProblemStatement, so the state between
its two writes still holds a Registration whose `problemStatementId`
refers to the already-deleted ProblemStatement. -/
theorem C5_counterexample :
    (∃ r ∈ (MongoStore.deletePSIntermediate
        ⟨[⟨"p1", "t", "d", 2, none, none, []⟩], [⟨"T1", "A", "L", "p1", "t0"⟩]⟩
        "p1").registrations, r.problemStatementId = "p1")
    ∧ (∀ p ∈ (MongoStore.deletePSIntermediate
        ⟨[⟨"p1", "t", "d", 2, none, none, []⟩], [⟨"T1", "A", "L", "p1", "t0"⟩]⟩
        "p1").problemStatements, p.id ≠ "p1") := by
  decide

/-- Helper: `createRegistrationAtomic` never removes a ledger row — any
pre-existing Registration survives the call. -/
theorem register_keeps_registration (req : RegRequest) (now : String) (s : Store)
    (r : Registration) (hr : r ∈ s.registrations) :
    r ∈ (JsonStore.createRegistrationAtomic req now s).2.registrations := by
  unfold JsonStore.createRegistrationAtomic
  by_cases hdup : s.registrations.any (fun x => x.teamNumber == req.teamNumber)
  · simpa [hdup] using hr
  · simp only [hdup, Bool.false_eq_true, if_false]
    cases hfind : s.problemStatements.find?
        (fun p => p.id == req.problemStatementId) with
    | none => simpa using hr
    | some ps =>
      by_cases hfull : (((s.registrations.filter
          (fun x => x.problemStatementId == ps.id)).length : Int) ≥ ps.maxSelections)
      · simpa [hfull] using hr
      · simp only [hfull, if_false, List.mem_append]
        exact Or.inl hr

/-- Claim C9: once a Registration with team number `t` is committed,
`register` with that team number is rejected with no state change; and
the taken-ness of `t` is preserved by every mutation that does not
delete that Registration — creating or updating problem statements,
deleting a problem statement no Registration of team `t` references,
deleting another team's registration, and any further register call. -/
theorem C9_idempotent_rejection (s : Store) (t : String)
    (h : JsonStore.isTeamNumberTaken s t = true) :
    (∀ req : RegRequest, ∀ now : String, req.teamNumber = t →
        JsonStore.createRegistrationAtomic req now s = (none, s))
    ∧ (∀ inp : PSInput,
        JsonStore.isTeamNumberTaken (JsonStore.createProblemStatement inp s).2 t = true)
    ∧ (∀ psId : String, ∀ u : JsonStore.PSUpdates,
        JsonStore.isTeamNumberTaken (JsonStore.updateProblemStatement s psId u).2 t = true)
    ∧ (∀ psId : String,
        (∀ r ∈ s.registrations, r.teamNumber = t → r.problemStatementId ≠ psId) →
        JsonStore.isTeamNumberTaken (JsonStore.deleteProblemStatement s psId).2 t = true)
    ∧ (∀ t2 : String, t2 ≠ t →
        JsonStore.isTeamNumberTaken (JsonStore.deleteRegistration s t2).2 t = true)
    ∧ (∀ req : RegRequest, ∀ now : String,
        JsonStore.isTeamNumberTaken
          (JsonStore.createRegistrationAtomic req now s).2 t = true) := by
  rcases (by simpa [JsonStore.isTeamNumberTaken, List.any_eq_true] using h :
      ∃ r ∈ s.registrations, r.teamNumber = t) with ⟨r0, hr0mem, hr0eq⟩
  refine ⟨?_, ?_, ?_, ?_, ?_, ?_⟩
  · intro req now hreq
    have hdup : s.registrations.any (fun x => x.teamNumber == req.teamNumber) = true := by
      simp only [List.any_eq_true]
      exact ⟨r0, hr0mem, by simp [hr0eq, hreq]⟩
    unfold JsonStore.createRegistrationAtomic
    simp [hdup]
  · intro inp
    have : (JsonStore.createProblemStatement inp s).2.registrations = s.registrations := by
      unfold JsonStore.createProblemStatement
      by_cases hc : s.problemStatements.any (fun q => q.id == inp.id) <;> simp [hc]
    simpa [JsonStore.isTeamNumberTaken, this] using h
  · intro psId u
    have : (JsonStore.updateProblemStatement s psId u).2.registrations = s.registrations := by
      unfold JsonStore.updateProblemStatement
      cases hres : JsonStore.updatePSList psId u s.problemStatements <;> simp [hres]
    simpa [JsonStore.isTeamNumberTaken, this] using h
  · intro psId hsafe
    have hkeep : r0.problemStatementId ≠ psId := hsafe r0 hr0mem hr0eq
    simp only [JsonStore.isTeamNumberTaken, JsonStore.deleteProblemStatement,
      List.any_eq_true]
    refine ⟨r0, List.mem_filter.mpr ⟨hr0mem, by simpa using hkeep⟩, by simp [hr0eq]⟩
  · intro t2 ht2
    have hkeep : r0.teamNumber ≠ t2 := by rw [hr0eq]; exact fun hh => ht2 hh.symm
    simp only [JsonStore.isTeamNumberTaken, JsonStore.deleteRegistration,
      List.any_eq_true]
    refine ⟨r0, List.mem_filter.mpr ⟨hr0mem, by simpa using hkeep⟩, by simp [hr0eq]⟩
  · intro req now
    simp only [JsonStore.isTeamNumberTaken, List.any_eq_true]
    exact ⟨r0, register_keeps_registration req now s r0 hr0mem, by simp [hr0eq]⟩

/-- Witness for C9: with "T1" committed, re-registering "T1" is rejected
and the state is unchanged. -/
theorem C9_idempotent_rejection_witness :
    JsonStore.isTeamNumberTaken
      (Store.mk [⟨"p1", "t", "d", 2, none, none, []⟩]
        [⟨"T1", "A", "L", "p1", "t0"⟩]) "T1" = true
    ∧ JsonStore.createRegistrationAtomic ⟨"T1", "B", "M", "p1"⟩ "t1"
        (Store.mk [⟨"p1", "t", "d", 2, none, none, []⟩]
          [⟨"T1", "A", "L", "p1", "t0"⟩])
      = (none, Store.mk [⟨"p1", "t", "d", 2, none, none, []⟩]
          [⟨"T1", "A", "L", "p1", "t0"⟩]) :=
  ⟨by decide,
   (C9_idempotent_rejection
     (Store.mk [⟨"p1", "t", "d", 2, none, none, []⟩]
       [⟨"T1", "A", "L", "p1", "t0"⟩]) "T1" (by decide)).1
     ⟨"T1", "B", "M", "p1"⟩ "t1" rfl⟩

/-- Capacity invariant of the spec (section 3, invariant 2): no problem
statement's ledger count exceeds its stored `maxSelections`. -/
def capacityOK (s : Store) : Prop :=
  ∀ p ∈ s.problemStatements,
    ((s.registrations.countP (fun r => r.problemStatementId == p.id)) : Int)
      ≤ p.maxSelections

instance capacityOK.instDecidable (s : Store) : Decidable (capacityOK s) := by
  unfold capacityOK
  infer_instance

/-- Claim C1, counterexample to the claim as stated: a store satisfying
the capacity invariant (two registrations, `maxSelections = 2`) stops
satisfying it after `updateProblemStatement` lowers `maxSelections` to 1
— so not every operation preserves the invariant. -/
theorem C1_counterexample :
    capacityOK ⟨[⟨"p1", "t", "d", 2, none, none, []⟩],
      [⟨"T1", "A", "L", "p1", "t0"⟩, ⟨"T2", "B", "M", "p1", "t0"⟩]⟩
    ∧ ¬ capacityOK (JsonStore.updateProblemStatement
        ⟨[⟨"p1", "t", "d", 2, none, none, []⟩],
          [⟨"T1", "A", "L", "p1", "t0"⟩, ⟨"T2", "B", "M", "p1", "t0"⟩]⟩
        "p1" ⟨none, none, none, some 1, none, none, none⟩).2 := by
  decide

/-- Claim C1 (amended): with distinct catalog ids, `register` rejects
whenever the resolved problem's ledger count is not strictly below its
`maxSelections`, and `register`, `deleteRegistration` and
`deleteProblemStatement` preserve the capacity invariant;
`createProblemStatement` and `updateProblemStatement` need not (they can
store a `maxSelections` below the current count). -/
theorem C1_capacity (s : Store) (req : RegRequest) (now : String)
    (psId t : String)
    (hnd : (s.problemStatements.map (fun p => p.id)).Nodup)
    (hcap : capacityOK s) :
    (∀ ps : ProblemStatement,
        s.problemStatements.find? (fun p => p.id == req.problemStatementId) = some ps →
        ((s.registrations.countP (fun r => r.problemStatementId == ps.id)) : Int)
            ≥ ps.maxSelections →
        JsonStore.createRegistrationAtomic req now s = (none, s))
    ∧ capacityOK (JsonStore.createRegistrationAtomic req now s).2
    ∧ capacityOK (JsonStore.deleteRegistration s t).2
    ∧ capacityOK (JsonStore.deleteProblemStatement s psId).2 := by
  refine ⟨?_, ?_, ?_, ?_⟩
  · intro ps hfind hfull
    unfold JsonStore.createRegistrationAtomic
    by_cases hdup : s.registrations.any (fun x => x.teamNumber == req.teamNumber)
    · simp [hdup]
    · have hlen : (((s.registrations.filter
          (fun r => r.problemStatementId == ps.id)).length : Int) ≥ ps.maxSelections) := by
        rw [← List.countP_eq_length_filter]
        exact hfull
      simp [hdup, hfind, hlen]
  · unfold JsonStore.createRegistrationAtomic
    by_cases hdup : s.registrations.any (fun x => x.teamNumber == req.teamNumber)
    · simpa [hdup] using hcap
    · simp only [hdup, Bool.false_eq_true, if_false]
      cases hfind : s.problemStatements.find?
          (fun p => p.id == req.problemStatementId) with
      | none => simpa using hcap
      | some ps =>
        by_cases hfull : (((s.registrations.filter
            (fun x => x.problemStatementId == ps.id)).length : Int) ≥ ps.maxSelections)
        · simpa [hfull] using hcap
        · simp only [hfull, if_false]
          intro p hp
          simp only at hp
          have hpsid : ps.id = req.problemStatementId := by
            simpa using List.find?_some hfind
          have hpsmem : ps ∈ s.problemStatements :=
            List.mem_of_find?_eq_some hfind
          simp only [List.countP_append]
          by_cases hid : req.problemStatementId = p.id
          · have hps_eq : p = ps :=
              List.inj_on_of_nodup_map hnd hp hpsmem (by rw [hpsid, hid])
            subst hps_eq
            have hlt : ((s.registrations.countP
                (fun r => r.problemStatementId == p.id)) : Int) < p.maxSelections := by
              rw [List.countP_eq_length_filter]
              exact lt_of_not_ge hfull
            have hone : (List.countP (fun r => r.problemStatementId == p.id)
                [({ teamNumber := req.teamNumber, teamName := req.teamName,
                    teamLeader := req.teamLeader,
                    problemStatementId := req.problemStatementId,
                    registrationDateTime := now } : Registration)]) = 1 := by
              simp [List.countP_cons, hid]
            rw [hone]
            push_cast
            omega
          · have hzero : (List.countP (fun r => r.problemStatementId == p.id)
                [({ teamNumber := req.teamNumber, teamName := req.teamName,
                    teamLeader := req.teamLeader,
                    problemStatementId := req.problemStatementId,
                    registrationDateTime := now } : Registration)]) = 0 := by
              simp [List.countP_cons, hid]
            rw [hzero]
            simpa using hcap p hp
  · intro p hp
    simp only [JsonStore.deleteRegistration] at hp ⊢
    calc ((List.countP (fun r => r.problemStatementId == p.id)
            (s.registrations.filter (fun r => !(r.teamNumber == t)))) : Int)
        ≤ ((List.countP (fun r => r.problemStatementId == p.id) s.registrations) : Int) := by
          exact_mod_cast (List.filter_sublist s.registrations).countP_le _
      _ ≤ p.maxSelections := hcap p hp
  · intro p hp
    simp only [JsonStore.deleteProblemStatement] at hp ⊢
    have hpmem : p ∈ s.problemStatements := List.mem_of_mem_filter hp
    calc ((List.countP (fun r => r.problemStatementId == p.id)
            (s.registrations.filter (fun r => !(r.problemStatementId == psId)))) : Int)
        ≤ ((List.countP (fun r => r.problemStatementId == p.id) s.registrations) : Int) := by
          exact_mod_cast (List.filter_sublist s.registrations).countP_le _
      _ ≤ p.maxSelections := hcap p hpmem

/-- Witness for C1 (amended) at a concrete one-slot-free store. -/
theorem C1_capacity_witness :
    ((Store.mk [⟨"p1", "t", "d", 2, none, none, []⟩]
        [⟨"T1", "A", "L", "p1", "t0"⟩]).problemStatements.map
          (fun p => p.id)).Nodup
    ∧ capacityOK (Store.mk [⟨"p1", "t", "d", 2, none, none, []⟩]
        [⟨"T1", "A", "L", "p1", "t0"⟩])
    ∧ capacityOK (JsonStore.createRegistrationAtomic ⟨"T2", "B", "M", "p1"⟩ "t1"
        (Store.mk [⟨"p1", "t", "d", 2, none, none, []⟩]
          [⟨"T1", "A", "L", "p1", "t0"⟩])).2 :=
  ⟨by decide, by decide,
   (C1_capacity (Store.mk [⟨"p1", "t", "d", 2, none, none, []⟩]
       [⟨"T1", "A", "L", "p1", "t0"⟩])
     ⟨"T2", "B", "M", "p1"⟩ "t1" "p1" "T1" (by decide) (by decide)).2.1⟩

/-- Helper: when no catalog entry has the id, `findIndex` misses and the
update writes nothing. -/
theorem updatePSList_eq_none (psId : String) (u : JsonStore.PSUpdates)
    (l : List ProblemStatement) (h : ∀ p ∈ l, p.id ≠ psId) :
    JsonStore.updatePSList psId u l = none := by
  induction l with
  | nil => rfl
  | cons a tl ih =>
    have ha : (a.id == psId) = false := by
      simpa using h a (List.mem_cons_self a tl)
    simp only [JsonStore.updatePSList, ha, Bool.false_eq_true, if_false]
    rw [ih (fun p hp => h p (List.mem_cons_of_mem a hp))]
    rfl

/-- Helper: with the first id match at position `l1.length`, the update
replaces exactly that element by its field merge. -/
theorem updatePSList_eq_some (psId : String) (u : JsonStore.PSUpdates)
    (l1 : List ProblemStatement) (p : ProblemStatement)
    (l2 : List ProblemStatement)
    (hclean : ∀ q ∈ l1, q.id ≠ psId) (hp : p.id = psId) :
    JsonStore.updatePSList psId u (l1 ++ p :: l2)
      = some (l1 ++ JsonStore.applyUpdates p u :: l2) := by
  induction l1 with
  | nil => simp [JsonStore.updatePSList, hp]
  | cons a tl ih =>
    have ha : (a.id == psId) = false := by
      simpa using hclean a (List.mem_cons_self a tl)
    simp only [List.cons_append, JsonStore.updatePSList, ha, Bool.false_eq_true,
      if_false, List.append_eq]
    rw [ih (fun q hq => hclean q (List.mem_cons_of_mem a hq))]
    rfl

/-- Helper: the field merge never changes the record's id. -/
theorem applyUpdates_id (p : ProblemStatement) (u : JsonStore.PSUpdates) :
    (JsonStore.applyUpdates p u).id = p.id := by
  unfold JsonStore.applyUpdates
  cases u.title <;> cases u.description <;> cases u.max_selections <;>
    cases u.maxSelections <;> cases u.category <;> cases u.difficulty <;>
    cases u.technologies <;> rfl

/-- Helper: when no catalog entry has the id, `updateOne` matches no
document and the Mongo update writes nothing. -/
theorem mongoUpdatePSList_eq_none (psId : String) (u : JsonStore.PSUpdates)
    (l : List ProblemStatement) (h : ∀ p ∈ l, p.id ≠ psId) :
    MongoStore.updatePSList psId u l = none := by
  induction l with
  | nil => rfl
  | cons a tl ih =>
    have ha : (a.id == psId) = false := by
      simpa using h a (List.mem_cons_self a tl)
    simp only [MongoStore.updatePSList, ha, Bool.false_eq_true, if_false]
    rw [ih (fun p hp => h p (List.mem_cons_of_mem a hp))]
    rfl

/-- Helper: with the first id match at position `l1.length`, the Mongo
update replaces exactly that element by its `$set` merge and reports the
matched document. -/
theorem mongoUpdatePSList_eq_some (psId : String) (u : JsonStore.PSUpdates)
    (l1 : List ProblemStatement) (p : ProblemStatement)
    (l2 : List ProblemStatement)
    (hclean : ∀ q ∈ l1, q.id ≠ psId) (hp : p.id = psId) :
    MongoStore.updatePSList psId u (l1 ++ p :: l2)
      = some (p, l1 ++ MongoStore.applyUpdates p u :: l2) := by
  induction l1 with
  | nil => simp [MongoStore.updatePSList, hp]
  | cons a tl ih =>
    have ha : (a.id == psId) = false := by
      simpa using hclean a (List.mem_cons_self a tl)
    simp only [List.cons_append, MongoStore.updatePSList, ha, Bool.false_eq_true,
      if_false, List.append_eq]
    rw [ih (fun q hq => hclean q (List.mem_cons_of_mem a hq))]
    rfl

/-- Helper: the Mongo `$set` merge never changes the record's id. -/
theorem mongoApplyUpdates_id (p : ProblemStatement) (u : JsonStore.PSUpdates) :
    (MongoStore.applyUpdates p u).id = p.id := by
  unfold MongoStore.applyUpdates
  cases u.title <;> cases u.description <;> cases u.category <;>
    cases u.difficulty <;> cases u.technologies <;> cases u.max_selections <;>
    cases u.maxSelections <;> rfl

/-- Claim C8, counterexample to the claim as stated: a catalog entry
with id "p1" exists, yet the Mongo store's update that sets the title to
its current value returns `changes = 0` — `modifiedCount` counts actual
modifications, refuting "the returned count is 1 otherwise". -/
theorem C8_counterexample :
    (∃ p ∈ (Store.mk [⟨"p1", "t", "d", 2, none, none, []⟩] []).problemStatements,
        p.id = "p1")
    ∧ (MongoStore.updateProblemStatement
          (Store.mk [⟨"p1", "t", "d", 2, none, none, []⟩] []) "p1"
          ⟨some "t", none, none, none, none, none, none⟩).1.changes = 0 := by
  decide

/-- Claim C8 (amended): on both backends `updateProblemStatement`
changes only the provided fields of the first catalog entry with the
given id — the registrations, every other entry, the record's id, and
every unprovided field are untouched. The file store reports
`changes = 0` exactly when no entry has that id and `changes = 1`
otherwise; the Mongo store reports `modifiedCount` — 0 when the id is
absent or the merge leaves the document unchanged, 1 otherwise — and a
provided max-selections value is stored clamped to ≥ 1 there. -/
theorem C8_update_frame (s : Store) (psId : String) (u : JsonStore.PSUpdates) :
    (JsonStore.updateProblemStatement s psId u).2.registrations = s.registrations
    ∧ ((∀ p ∈ s.problemStatements, p.id ≠ psId) →
        JsonStore.updateProblemStatement s psId u = ({ id := psId, changes := 0 }, s))
    ∧ (∀ l1 p l2, s.problemStatements = l1 ++ p :: l2 →
        (∀ q ∈ l1, q.id ≠ psId) → p.id = psId →
        (JsonStore.updateProblemStatement s psId u).1 = { id := psId, changes := 1 }
        ∧ (JsonStore.updateProblemStatement s psId u).2.problemStatements
            = l1 ++ JsonStore.applyUpdates p u :: l2)
    ∧ (MongoStore.updateProblemStatement s psId u).2.registrations = s.registrations
    ∧ ((∀ p ∈ s.problemStatements, p.id ≠ psId) →
        MongoStore.updateProblemStatement s psId u = ({ id := psId, changes := 0 }, s))
    ∧ (∀ l1 p l2, s.problemStatements = l1 ++ p :: l2 →
        (∀ q ∈ l1, q.id ≠ psId) → p.id = psId →
        (MongoStore.updateProblemStatement s psId u).1.changes
            = (if MongoStore.applyUpdates p u = p then 0 else 1)
        ∧ (MongoStore.updateProblemStatement s psId u).2.problemStatements
            = l1 ++ MongoStore.applyUpdates p u :: l2)
    ∧ (∀ p : ProblemStatement, (JsonStore.applyUpdates p u).id = p.id)
    ∧ (∀ p : ProblemStatement, u.title = none →
        (JsonStore.applyUpdates p u).title = p.title)
    ∧ (∀ p : ProblemStatement, u.description = none →
        (JsonStore.applyUpdates p u).description = p.description)
    ∧ (∀ p : ProblemStatement, u.max_selections = none → u.maxSelections = none →
        (JsonStore.applyUpdates p u).maxSelections = p.maxSelections)
    ∧ (∀ p : ProblemStatement, u.category = none →
        (JsonStore.applyUpdates p u).category = p.category)
    ∧ (∀ p : ProblemStatement, u.difficulty = none →
        (JsonStore.applyUpdates p u).difficulty = p.difficulty)
    ∧ (∀ p : ProblemStatement, u.technologies = none →
        (JsonStore.applyUpdates p u).technologies = p.technologies)
    ∧ (∀ p : ProblemStatement, (MongoStore.applyUpdates p u).id = p.id)
    ∧ (∀ p : ProblemStatement, u.title = none →
        (MongoStore.applyUpdates p u).title = p.title)
    ∧ (∀ p : ProblemStatement, u.description = none →
        (MongoStore.applyUpdates p u).description = p.description)
    ∧ (∀ p : ProblemStatement, u.max_selections = none → u.maxSelections = none →
        (MongoStore.applyUpdates p u).maxSelections = p.maxSelections)
    ∧ (∀ p : ProblemStatement, u.category = none →
        (MongoStore.applyUpdates p u).category = p.category)
    ∧ (∀ p : ProblemStatement, u.difficulty = none →
        (MongoStore.applyUpdates p u).difficulty = p.difficulty)
    ∧ (∀ p : ProblemStatement, u.technologies = none →
        (MongoStore.applyUpdates p u).technologies = p.technologies)
    ∧ (∀ p : ProblemStatement, ∀ v : Int, u.max_selections = some v →
        (MongoStore.applyUpdates p u).maxSelections = MongoStore.clampMax v)
    ∧ (∀ p : ProblemStatement, ∀ v : Int, u.max_selections = none →
        u.maxSelections = some v →
        (MongoStore.applyUpdates p u).maxSelections = MongoStore.clampMax v) := by
  refine ⟨?_, ?_, ?_, ?_, ?_, ?_, applyUpdates_id (u := u), ?_, ?_, ?_, ?_, ?_, ?_,
    mongoApplyUpdates_id (u := u), ?_, ?_, ?_, ?_, ?_, ?_, ?_, ?_⟩
  · unfold JsonStore.updateProblemStatement
    cases hres : JsonStore.updatePSList psId u s.problemStatements <;> simp
  · intro h
    unfold JsonStore.updateProblemStatement
    rw [updatePSList_eq_none psId u s.problemStatements h]
  · intro l1 p l2 hsplit hclean hp
    unfold JsonStore.updateProblemStatement
    rw [hsplit, updatePSList_eq_some psId u l1 p l2 hclean hp]
    exact ⟨rfl, rfl⟩
  · unfold MongoStore.updateProblemStatement
    cases hres : MongoStore.updatePSList psId u s.problemStatements with
    | none => simp
    | some pr =>
      obtain ⟨old, l⟩ := pr
      simp
  · intro h
    unfold MongoStore.updateProblemStatement
    rw [mongoUpdatePSList_eq_none psId u s.problemStatements h]
  · intro l1 p l2 hsplit hclean hp
    unfold MongoStore.updateProblemStatement
    rw [hsplit, mongoUpdatePSList_eq_some psId u l1 p l2 hclean hp]
    exact ⟨rfl, rfl⟩
  · intro p h
    unfold JsonStore.applyUpdates
    rw [h]
    cases u.description <;> cases u.max_selections <;> cases u.maxSelections <;>
      cases u.category <;> cases u.difficulty <;> cases u.technologies <;> rfl
  · intro p h
    unfold JsonStore.applyUpdates
    rw [h]
    cases u.title <;> cases u.max_selections <;> cases u.maxSelections <;>
      cases u.category <;> cases u.difficulty <;> cases u.technologies <;> rfl
  · intro p h1 h2
    unfold JsonStore.applyUpdates
    rw [h1, h2]
    cases u.title <;> cases u.description <;> cases u.category <;>
      cases u.difficulty <;> cases u.technologies <;> rfl
  · intro p h
    unfold JsonStore.applyUpdates
    rw [h]
    cases u.title <;> cases u.description <;> cases u.max_selections <;>
      cases u.maxSelections <;> cases u.difficulty <;> cases u.technologies <;> rfl
  · intro p h
    unfold JsonStore.applyUpdates
    rw [h]
    cases u.title <;> cases u.description <;> cases u.max_selections <;>
      cases u.maxSelections <;> cases u.category <;> cases u.technologies <;> rfl
  · intro p h
    unfold JsonStore.applyUpdates
    rw [h]
    cases u.title <;> cases u.description <;> cases u.max_selections <;>
      cases u.maxSelections <;> cases u.category <;> cases u.difficulty <;> rfl
  · intro p h
    unfold MongoStore.applyUpdates
    rw [h]
    cases u.description <;> cases u.category <;> cases u.difficulty <;>
      cases u.technologies <;> cases u.max_selections <;>
      cases u.maxSelections <;> rfl
  · intro p h
    unfold MongoStore.applyUpdates
    rw [h]
    cases u.title <;> cases u.category <;> cases u.difficulty <;>
      cases u.technologies <;> cases u.max_selections <;>
      cases u.maxSelections <;> rfl
  · intro p h1 h2
    unfold MongoStore.applyUpdates
    rw [h1, h2]
    cases u.title <;> cases u.description <;> cases u.category <;>
      cases u.difficulty <;> cases u.technologies <;> rfl
  · intro p h
    unfold MongoStore.applyUpdates
    rw [h]
    cases u.title <;> cases u.description <;> cases u.difficulty <;>
      cases u.technologies <;> cases u.max_selections <;>
      cases u.maxSelections <;> rfl
  · intro p h
    unfold MongoStore.applyUpdates
    rw [h]
    cases u.title <;> cases u.description <;> cases u.category <;>
      cases u.technologies <;> cases u.max_selections <;>
      cases u.maxSelections <;> rfl
  · intro p h
    unfold MongoStore.applyUpdates
    rw [h]
    cases u.title <;> cases u.description <;> cases u.category <;>
      cases u.difficulty <;> cases u.max_selections <;>
      cases u.maxSelections <;> rfl
  · intro p v h
    unfold MongoStore.applyUpdates
    rw [h]
  · intro p v h1 h2
    unfold MongoStore.applyUpdates
    rw [h1, h2]

/-- Witness for C8 (amended): updating an absent id reports zero changes
and leaves the store unchanged on both backends. -/
theorem C8_update_frame_witness :
    JsonStore.updateProblemStatement
        (Store.mk [⟨"p1", "t", "d", 2, none, none, []⟩] []) "p9"
        ⟨some "x", none, none, none, none, none, none⟩
      = ({ id := "p9", changes := 0 },
         Store.mk [⟨"p1", "t", "d", 2, none, none, []⟩] [])
    ∧ MongoStore.updateProblemStatement
        (Store.mk [⟨"p1", "t", "d", 2, none, none, []⟩] []) "p9"
        ⟨some "x", none, none, none, none, none, none⟩
      = ({ id := "p9", changes := 0 },
         Store.mk [⟨"p1", "t", "d", 2, none, none, []⟩] []) :=
  ⟨(C8_update_frame (Store.mk [⟨"p1", "t", "d", 2, none, none, []⟩] []) "p9"
      ⟨some "x", none, none, none, none, none, none⟩).2.1 (by decide),
   (C8_update_frame (Store.mk [⟨"p1", "t", "d", 2, none, none, []⟩] []) "p9"
      ⟨some "x", none, none, none, none, none, none⟩).2.2.2.2.1 (by decide)⟩

/-- Claim C10, counterexample to the claim as stated: on identical
abstract states (one problem with a free slot, team "T1" registered),
the request with team number " T1" is accepted by the file store (no
trimming: " T1" ≠ "T1") but rejected by the Mongo store (it trims to
"T1", a duplicate) — the two backends diverge. -/
theorem C10_counterexample :
    (JsonStore.createRegistrationAtomic ⟨" T1", "A", "L", "p1"⟩ "t1"
        ⟨[⟨"p1", "t", "d", 2, none, none, []⟩], [⟨"T1", "B", "M", "p1", "t0"⟩]⟩).1
      = some { id := " T1", changes := 1 }
    ∧ (MongoStore.createRegistrationAtomic ⟨" T1", "A", "L", "p1"⟩ "t1"
        ⟨[⟨"p1", "t", "d", 2, none, none, []⟩], [⟨"T1", "B", "M", "p1", "t0"⟩]⟩).1
      = none := by
  decide

/-- Claim C10 (amended): the two backends' `createRegistrationAtomic`
agree — same accept/reject decision and same resulting abstract state —
whenever the request's team number is already trimmed and every stored
`maxSelections` is at least 1 (so the Mongo store's trimming and
clamping are no-ops); without those conditions they can diverge. -/
theorem C10_backend_equivalence (s : Store) (req : RegRequest) (now : String)
    (htrim : jsTrim req.teamNumber = req.teamNumber)
    (hmax : ∀ p ∈ s.problemStatements, 1 ≤ p.maxSelections) :
    MongoStore.createRegistrationAtomic req now s
      = JsonStore.createRegistrationAtomic req now s := by
  unfold MongoStore.createRegistrationAtomic JsonStore.createRegistrationAtomic
  rw [htrim]
  by_cases hdup : s.registrations.any (fun r => r.teamNumber == req.teamNumber)
  · simp [hdup]
  · simp only [hdup, Bool.false_eq_true, if_false]
    cases hfind : s.problemStatements.find?
        (fun p => p.id == req.problemStatementId) with
    | none => rfl
    | some ps =>
      have hps : 1 ≤ ps.maxSelections := hmax ps (List.mem_of_find?_eq_some hfind)
      have hclamp : MongoStore.clampMax ps.maxSelections = ps.maxSelections :=
        max_eq_right hps
      simp only [hclamp]

/-- Witness for C10 (amended): on a fresh one-problem store both
backends accept "T1" and produce the same state. -/
theorem C10_backend_equivalence_witness :
    jsTrim (RegRequest.mk "T1" "A" "L" "p1").teamNumber
        = (RegRequest.mk "T1" "A" "L" "p1").teamNumber
    ∧ (∀ p ∈ (Store.mk [⟨"p1", "t", "d", 2, none, none, []⟩] []).problemStatements,
        1 ≤ p.maxSelections)
    ∧ MongoStore.createRegistrationAtomic ⟨"T1", "A", "L", "p1"⟩ "t1"
        (Store.mk [⟨"p1", "t", "d", 2, none, none, []⟩] [])
      = JsonStore.createRegistrationAtomic ⟨"T1", "A", "L", "p1"⟩ "t1"
        (Store.mk [⟨"p1", "t", "d", 2, none, none, []⟩] []) :=
  ⟨by decide, by decide,
   C10_backend_equivalence (Store.mk [⟨"p1", "t", "d", 2, none, none, []⟩] [])
     ⟨"T1", "A", "L", "p1"⟩ "t1" (by decide) (by decide)⟩
